import Mathlib

/-!
Shallow embedding of the nova volume service core (nova/volume/manager.py and
nova/volume/driver.py): the retrying command executor, the resource-pool
population and allocation helpers, the iSCSI driver command generation and
discovery parsing, and the volume manager orchestration.  Machine strings are
Lean `String`, Python ints are `Nat`, the external process executor is an
oracle from call index and command to an outcome, and the persistent store is
explicit state.
-/

namespace Nova

/-- Outcome of one invocation of the process-execution capability
(`process.simple_execute`): either stdout/stderr on success, or a raised
`exception.ProcessExecutionError` carrying a message. -/
inductive ExecOutcome where
  | ok (stdout stderr : String)
  | processError (msg : String)
deriving DecidableEq, Repr

/-- The injectable execute capability, as an oracle: the n-th call overall
(0-based), applied to a command string, yields an outcome. -/
def Execute : Type := Nat → String → ExecOutcome

/-- Result of `VolumeDriver._try_execute`: success, or a propagated
`ProcessExecutionError` message. -/
inductive TryResult where
  | success
  | failure (msg : String)
deriving DecidableEq, Repr

/-- The backoff command `"sleep %s" % tries ** 2` issued between attempts. -/
def sleepCmd (tries : Nat) : String := "sleep " ++ toString (tries ^ 2)

/-- The loop body of `VolumeDriver._try_execute` (driver.py lines 65-81):
run the command; on success return; on `ProcessExecutionError` increment
`tries`, re-raise once `tries >= FLAGS.num_shell_tries`, otherwise execute
`"sleep %s" % tries ** 2` through the same execute capability and loop.
A failure of the sleep command itself is raised from inside the `except`
block and propagates.  Returns the result together with the list of commands
given to the execute capability, in order; `k` is the oracle call index and
`tries` the failure counter. -/
def tryExecuteGo (e : Execute) (maxTries : Nat) (cmd : String)
    (k tries : Nat) : TryResult × List String :=
  match e k cmd with
  | .ok _ _ => (.success, [cmd])
  | .processError msg =>
    if h : tries + 1 ≥ maxTries then
      (.failure msg, [cmd])
    else
      match e (k + 1) (sleepCmd (tries + 1)) with
      | .processError smsg => (.failure smsg, [cmd, sleepCmd (tries + 1)])
      | .ok _ _ =>
        let r := tryExecuteGo e maxTries cmd (k + 2) (tries + 1)
        (r.1, cmd :: sleepCmd (tries + 1) :: r.2)
termination_by maxTries - tries
decreasing_by omega

/-- `VolumeDriver._try_execute(command)` starting with a fresh call counter
and `tries = 0`. -/
def tryExecute (e : Execute) (maxTries : Nat) (cmd : String) :
    TryResult × List String :=
  tryExecuteGo e maxTries cmd 0 0

/-- The size string chosen by `VolumeDriver.create_volume`: `'100M'` when
`int(volume['size']) == 0`, else `'%sG' % volume['size']`. -/
def lvSizeStr (size : Nat) : String :=
  if size = 0 then "100M" else toString size ++ "G"

/-- The `lvcreate` command issued by `VolumeDriver.create_volume`
(driver.py lines 89-99). -/
def lvcreateCmd (volume_group name : String) (size : Nat) : String :=
  "sudo lvcreate -L " ++ lvSizeStr size ++ " -n " ++ name ++ " " ++ volume_group

/-- The `lvremove` command issued by `VolumeDriver.delete_volume`. -/
def lvremoveCmd (volume_group name : String) : String :=
  "sudo lvremove -f " ++ volume_group ++ "/" ++ name

/-- `VolumeDriver.local_path`: the direct device path
`"/dev/%s/%s" % (FLAGS.volume_group, volume['name'])`. -/
def local_path (volume_group name : String) : String :=
  "/dev/" ++ volume_group ++ "/" ++ name

/-- Whether `needle` occurs as a contiguous sublist of `hay`. -/
def listIsInfix {α : Type} [BEq α] : List α → List α → Bool
  | needle, [] => needle.isEmpty
  | needle, x :: rest => needle.isPrefixOf (x :: rest) || listIsInfix needle rest

/-- Python's substring test `needle in hay`. -/
def strContains (hay needle : String) : Bool :=
  listIsInfix needle.data hay.data

/-- Split a character list at every occurrence of the separator `c`
(the behaviour of Python `split` with a one-character separator). -/
def splitOnChar (c : Char) : List Char → List (List Char)
  | [] => [[]]
  | x :: xs =>
    match splitOnChar c xs with
    | [] => [[]]
    | piece :: pieces =>
      if x = c then [] :: piece :: pieces else (x :: piece) :: pieces

/-- Python `s.split(c)` for a one-character separator `c`. -/
def strSplitChar (s : String) (c : Char) : List String :=
  (splitOnChar c s.data).map (fun l => String.mk l)

/-- Rejoin pieces with the one-character separator `c` between them. -/
def joinWithChar (c : Char) : List String → String
  | [] => ""
  | [x] => x
  | x :: y :: rest => x ++ String.mk [c] ++ joinWithChar c (y :: rest)

/-- Python's `s.partition(c)` for a one-character separator: split at the
first occurrence, returning (head, sep, tail); when the separator does not
occur, (s, "", ""). -/
def strPartition (s : String) (c : Char) : String × String × String :=
  match strSplitChar s c with
  | [] => (s, "", "")
  | [_] => (s, "", "")
  | p :: rest => (p, String.mk [c], joinWithChar c rest)

/-- Result of `ISCSIDriver._get_name_and_portal`.  When no line of the
discovery output passes the filter, the Python local `location` was never
assigned and the subsequent `location.split(",")` raises an
UnboundLocalError (an undefined-value fault), modelled by
`unboundLocalError`. -/
inductive NameAndPortal where
  | found (iscsi_name iscsi_portal : String)
  | unboundLocalError
deriving DecidableEq, Repr

/-- `ISCSIDriver._get_name_and_portal` (driver.py lines 271-280) applied to
the stdout `out` of the discovery command: scan the lines of `out` for the
first one containing both the configured IP filter string (flag
`iscsi_ip_prefix`, here `ipFilter`) and the volume name, partition it at the
first space into a location and an iSCSI name, and return the name together
with `location.split(",")[0]`.  Python `splitlines` is modelled as splitting
on newline. -/
def getNameAndPortal (ipFilter volume_name out : String) : NameAndPortal :=
  match (strSplitChar out '\n').find?
      (fun t => strContains t ipFilter && strContains t volume_name) with
  | some target =>
    let parts := strPartition target ' '
    .found parts.2.2 ((strSplitChar parts.1 ',').headD "")
  | none => .unboundLocalError

/-- The iSCSI qualified name `"%s%s" % (FLAGS.iscsi_target_prefix, name)`;
`iqnBase` stands for the flag `iscsi_target_prefix`. -/
def iscsiName (iqnBase name : String) : String := iqnBase ++ name

/-- `ietadm` target-creation command from `ISCSIDriver.create_export`. -/
def ietadmNewTargetCmd (tid : Nat) (iqn : String) : String :=
  "sudo ietadm --op new --tid=" ++ toString tid ++ " --params Name=" ++ iqn

/-- `ietadm` LUN-creation command from `ISCSIDriver.create_export`. -/
def ietadmNewLunCmd (tid : Nat) (path : String) : String :=
  "sudo ietadm --op new --tid=" ++ toString tid ++
    " --lun=0 --params Path=" ++ path ++ ",Type=fileio"

/-- The discovery command issued by `ISCSIDriver._get_name_and_portal`. -/
def iscsiDiscoveryCmd (host : String) : String :=
  "sudo iscsiadm -m discovery -t sendtargets -p " ++ host

/-- The login command issued by `ISCSIDriver.discover_volume`. -/
def iscsiLoginCmd (iqn portal : String) : String :=
  "sudo iscsiadm -m node -T " ++ iqn ++ " -p " ++ portal ++ " --login"

/-- The automatic-startup update command issued by
`ISCSIDriver.discover_volume`. -/
def iscsiAutoStartupCmd (iqn portal : String) : String :=
  "sudo iscsiadm -m node -T " ++ iqn ++ " -p " ++ portal ++
    " --op update -n node.startup -v automatic"

/-- `ISCSIDriver.discover_volume` given the stdout of the discovery command:
on a filter match it logs in, marks the node automatic, and returns
`"/dev/iscsi/%s" % volume['name']` together with the issued commands; when
`_get_name_and_portal` hits its undefined-value fault the crash propagates,
modelled as `none`. -/
def iscsiDiscoverVolume (ipFilter : String) (discoveryOut : String)
    (volume_name volume_host : String) : Option (String × List String) :=
  match getNameAndPortal ipFilter volume_name discoveryOut with
  | .unboundLocalError => none
  | .found iqn portal =>
    some ("/dev/iscsi/" ++ volume_name,
      [iscsiDiscoveryCmd volume_host, iscsiLoginCmd iqn portal,
       iscsiAutoStartupCmd iqn portal])

/-- A volume record as the manager reads and mutates it: identifier, display
name, size in gigabytes, owning host, status, attach status, and the launch
timestamp set when creation completes (`none` until then). -/
structure Volume where
  id : Nat
  name : String
  size : Nat
  host : String
  status : String
  attach_status : String
  launched_at : Option Nat
deriving DecidableEq, Repr

/-- An `export_devices` row: one AoE shelf/blade pair.
Modelled from the spec: the store keeps one row per shelf/blade pair
(`export_device_count`, `export_device_create_safe` are store collaborator
operations outside src). -/
structure ExportDevice where
  shelf_id : Nat
  blade_id : Nat
deriving DecidableEq, Repr

/-- An iSCSI target row: host, target id, and the volume the id is allocated
to (`none` while unassigned).
Modelled from the spec: the store keeps one row per (host, target_id)
(`target_id_count_by_host`, `target_id_create_safe`,
`volume_allocate_target_id` are store collaborator operations outside
src). -/
structure TargetRow where
  host : String
  target_id : Nat
  volume_id : Option Nat
deriving DecidableEq, Repr

/-- Modelled from the spec: `export_device_create_safe`, a create-if-absent
insert of a shelf/blade row that tolerates the row already existing. -/
def exportDeviceCreateSafe (dev : ExportDevice) (ds : List ExportDevice) :
    List ExportDevice :=
  if dev ∈ ds then ds else ds ++ [dev]

/-- `AOEDriver._ensure_blades` (driver.py lines 145-153): if the store
already holds at least `num_shelves * blades_per_shelf` rows, return;
otherwise insert every pair of the grid
`[0, num_shelves) × [0, blades_per_shelf)` through the create-safe insert. -/
def ensureBlades (num_shelves blades_per_shelf : Nat)
    (ds : List ExportDevice) : List ExportDevice :=
  if ds.length ≥ num_shelves * blades_per_shelf then ds
  else
    (List.range num_shelves).foldl
      (fun acc shelf_id =>
        (List.range blades_per_shelf).foldl
          (fun acc2 blade_id =>
            exportDeviceCreateSafe ⟨shelf_id, blade_id⟩ acc2)
          acc)
      ds

/-- Modelled from the spec: `target_id_count_by_host`, the number of target
rows scoped to `host`. -/
def targetIdCountByHost (host : String) (ts : List TargetRow) : Nat :=
  (ts.filter (fun r => r.host = host)).length

/-- Modelled from the spec: `target_id_create_safe`, a create-if-absent
insert of an unassigned target row keyed on (host, target_id). -/
def targetIdCreateSafe (host : String) (tid : Nat) (ts : List TargetRow) :
    List TargetRow :=
  if ts.any (fun r => r.host = host ∧ r.target_id = tid) then ts
  else ts ++ [⟨host, tid, none⟩]

/-- `ISCSIDriver._ensure_target_ids` (driver.py lines 236-244): if the store
already holds at least `iscsi_target_ids` rows for `host`, return; otherwise
insert ids `1 .. iscsi_target_ids` (ids start at 1) through the create-safe
insert. -/
def ensureTargetIds (iscsi_target_ids : Nat) (host : String)
    (ts : List TargetRow) : List TargetRow :=
  if targetIdCountByHost host ts ≥ iscsi_target_ids then ts
  else
    (List.range iscsi_target_ids).foldl
      (fun acc i => targetIdCreateSafe host (i + 1) acc) ts

/-- Modelled from the spec: `volume_allocate_target_id`, which atomically
picks one currently-unassigned target id scoped to `host`, marks it owned by
`volume_id`, and returns it; the tie-break is delegated to the store and
modelled as first-free-in-row-order.  `none` when the pool for `host` is
exhausted. -/
def volumeAllocateTargetId (host : String) (volume_id : Nat) :
    List TargetRow → Option (Nat × List TargetRow)
  | [] => none
  | r :: rs =>
    if r.host = host ∧ r.volume_id = none then
      some (r.target_id, { r with volume_id := some volume_id } :: rs)
    else
      (volumeAllocateTargetId host volume_id rs).map
        (fun p => (p.1, r :: p.2))

/-- Create-if-absent insertion into a pool of identifier rows, the store
contract both `export_device_create_safe` and `target_id_create_safe`
implement (argument order suits `List.foldl`). -/
def poolInsert {α : Type} [DecidableEq α] (ks : List α) (a : α) : List α :=
  if a ∈ ks then ks else ks ++ [a]

/-- The full shelf/blade identifier grid
`[0, num_shelves) × [0, blades_per_shelf)` in the order the population loop
of `_ensure_blades` walks it. -/
def bladeGrid (num_shelves blades_per_shelf : Nat) : List ExportDevice :=
  (List.range num_shelves).flatMap fun shelf_id =>
    (List.range blades_per_shelf).map fun blade_id => ⟨shelf_id, blade_id⟩

/-- The target ids already present for `host`, in row order. -/
def hostTids (host : String) (ts : List TargetRow) : List Nat :=
  (ts.filter (fun r => r.host = host)).map (fun r => r.target_id)

/-- The configuration flags the volume manager and drivers read.  `iqnBase`
stands for the flag `iscsi_target_prefix` and `ipFilter` for the flag
`iscsi_ip_prefix`. -/
structure Flags where
  volume_group : String
  iscsi_target_ids : Nat
  iqnBase : String
  ipFilter : String
  num_shell_tries : Nat
  use_local_volumes : Bool
deriving Repr

/-- The default flag values declared in manager.py and driver.py. -/
def defaultFlags : Flags :=
  { volume_group := "nova-volumes"
    iscsi_target_ids := 100
    iqnBase := "iqn.2010-10.org.openstack:"
    ipFilter := "127.0"
    num_shell_tries := 3
    use_local_volumes := true }

/-- The slice of the persistent store the volume manager touches: volume
records and iSCSI target rows. -/
structure Db where
  volumes : List Volume
  targets : List TargetRow
deriving DecidableEq, Repr

/-- Modelled from the spec: `volume_get`, reading a volume record by id. -/
def volumeGet (db : Db) (volume_id : Nat) : Option Volume :=
  db.volumes.find? (fun v => v.id = volume_id)

/-- Modelled from the spec: `volume_update` with `{'host': host}`. -/
def volumeUpdateHost (db : Db) (volume_id : Nat) (host : String) : Db :=
  { db with
    volumes := db.volumes.map fun v =>
      if v.id = volume_id then { v with host := host } else v }

/-- Modelled from the spec: `volume_update` with
`{'status': 'available', 'launched_at': now}`. -/
def volumeUpdateAvailable (db : Db) (volume_id : Nat) (now : Nat) : Db :=
  { db with
    volumes := db.volumes.map fun v =>
      if v.id = volume_id then
        { v with status := "available", launched_at := some now }
      else v }

/-- Modelled from the spec: `volume_destroy`, deleting the record. -/
def volumeDestroy (db : Db) (volume_id : Nat) : Db :=
  { db with volumes := db.volumes.filter (fun v => v.id ≠ volume_id) }

/-- One observable step of a manager operation, in execution order: store
reads/writes, target-id allocation, and commands handed to the execute
capability. -/
inductive Event where
  | getVolume (volume_id : Nat)
  | updateHost (volume_id : Nat) (host : String)
  | exec (cmd : String)
  | allocTarget (volume_id : Nat) (host : String) (target_id : Nat)
  | updateAvailable (volume_id : Nat)
deriving DecidableEq, Repr

/-- `ISCSIDriver.create_export` (driver.py lines 246-260) on the success
path of every executed command: ensure the target-id pool for the volume's
host, allocate a target id for the volume, then issue the target-creation
and LUN-creation `ietadm` commands.  Returns the events in order and the
updated store; `none` when the allocation finds no free id. -/
def iscsiCreateExport (f : Flags) (db : Db) (v : Volume) :
    Option (List Event × Db) :=
  let ts := ensureTargetIds f.iscsi_target_ids v.host db.targets
  match volumeAllocateTargetId v.host v.id ts with
  | none => none
  | some (tid, ts2) =>
    some ([Event.allocTarget v.id v.host tid,
           Event.exec (ietadmNewTargetCmd tid (iscsiName f.iqnBase v.name)),
           Event.exec (ietadmNewLunCmd tid (local_path f.volume_group v.name))],
          { db with targets := ts2 })

/-- `VolumeManager.create_volume` (manager.py lines 68-94) with the iSCSI
driver, on the path where every executed command succeeds: load the record,
persist `host` onto it (and set it on the in-memory record), create the
backing logical volume via `_try_execute(lvcreate …)`, create the export,
then update the record to status "available" with launch timestamp `now`.
Returns the events in order and the final store; `none` when the record is
missing or the target-id allocation fails. -/
def createVolume (f : Flags) (self_host : String) (now : Nat) (db : Db)
    (volume_id : Nat) : Option (List Event × Db) :=
  match volumeGet db volume_id with
  | none => none
  | some v0 =>
    let db1 := volumeUpdateHost db volume_id self_host
    let v := { v0 with host := self_host }
    match iscsiCreateExport f db1 v with
    | none => none
    | some (exportEvents, db2) =>
      some ([Event.getVolume volume_id,
             Event.updateHost volume_id self_host,
             Event.exec (lvcreateCmd f.volume_group v.name v.size)]
              ++ exportEvents
              ++ [Event.updateAvailable volume_id],
            volumeUpdateAvailable db2 volume_id now)

/-- Outcome of `VolumeManager.delete_volume`: a precondition rejection
(`exception.Error`, the spec's ValidationError), a driver-step failure
propagating to the caller, or successful deletion. -/
inductive DeleteOutcome where
  | validationError (msg : String)
  | execError (msg : String)
  | notFound
  | deleted
deriving DecidableEq, Repr

/-- `VolumeManager.delete_volume` (manager.py lines 96-111): load the
record; reject when `attach_status == "attached"`, then when
`host != self.host`; otherwise run `driver.remove_export` then
`driver.delete_volume` (their results passed in as `removeExportRes` and
`deleteVolRes`), and only then destroy the record.  Returns the outcome, the
resulting store, and the driver steps that ran, in order. -/
def deleteVolume (self_host : String)
    (removeExportRes deleteVolRes : Except String Unit)
    (db : Db) (volume_id : Nat) :
    DeleteOutcome × Db × List String :=
  match volumeGet db volume_id with
  | none => (.notFound, db, [])
  | some v =>
    if v.attach_status = "attached" then
      (.validationError "Volume is still attached", db, [])
    else if v.host ≠ self_host then
      (.validationError "Volume is not local to this node", db, [])
    else
      match removeExportRes with
      | .error e => (.execError e, db, ["remove_export"])
      | .ok _ =>
        match deleteVolRes with
        | .error e => (.execError e, db, ["remove_export", "delete_volume"])
        | .ok _ =>
          (.deleted, volumeDestroy db volume_id,
           ["remove_export", "delete_volume"])

/-- `VolumeManager.setup_compute_volume` (manager.py lines 113-125) with the
iSCSI driver: load the record; when its host equals this host and
`use_local_volumes` is set, return `driver.local_path` (which issues no
commands); otherwise run `driver.discover_volume` against the discovery
output `discoveryOut`.  Returns the path and the commands issued; `none`
when the record is missing or discovery crashes. -/
def setupComputeVolume (f : Flags) (self_host : String)
    (discoveryOut : String) (db : Db) (volume_id : Nat) :
    Option (String × List String) :=
  match volumeGet db volume_id with
  | none => none
  | some v =>
    if v.host = self_host ∧ f.use_local_volumes then
      some (local_path f.volume_group v.name, [])
    else
      iscsiDiscoverVolume f.ipFilter discoveryOut v.name v.host

/-! ## Helper lemmas -/

/-- One step of `_try_execute`: the attempt succeeds. -/
theorem tryExecuteGo_ok {e : Execute} {M : Nat} {cmd : String} {k t : Nat}
    {o1 o2 : String} (h : e k cmd = .ok o1 o2) :
    tryExecuteGo e M cmd k t = (.success, [cmd]) := by
  rw [tryExecuteGo, h]

/-- One step of `_try_execute`: the attempt fails and the retry budget is
exhausted, so the failure is re-raised. -/
theorem tryExecuteGo_fail_exhausted {e : Execute} {M : Nat} {cmd : String}
    {k t : Nat} {m : String} (h : e k cmd = .processError m)
    (hT : t + 1 ≥ M) :
    tryExecuteGo e M cmd k t = (.failure m, [cmd]) := by
  rw [tryExecuteGo, h]
  simp [hT]

/-- One step of `_try_execute`: the attempt fails, budget remains, and the
backoff sleep command itself fails, so that failure propagates. -/
theorem tryExecuteGo_fail_sleep_fail {e : Execute} {M : Nat} {cmd : String}
    {k t : Nat} {m s : String} (h : e k cmd = .processError m)
    (hT : t + 1 < M) (hs : e (k + 1) (sleepCmd (t + 1)) = .processError s) :
    tryExecuteGo e M cmd k t = (.failure s, [cmd, sleepCmd (t + 1)]) := by
  rw [tryExecuteGo, h]
  simp [Nat.not_le_of_lt hT, hs]

/-- One step of `_try_execute`: the attempt fails, budget remains, the sleep
succeeds, and the loop continues with the incremented failure counter. -/
theorem tryExecuteGo_fail_sleep_ok {e : Execute} {M : Nat} {cmd : String}
    {k t : Nat} {m a b : String} (h : e k cmd = .processError m)
    (hT : t + 1 < M) (hs : e (k + 1) (sleepCmd (t + 1)) = .ok a b) :
    tryExecuteGo e M cmd k t =
      ((tryExecuteGo e M cmd (k + 2) (t + 1)).1,
       cmd :: sleepCmd (t + 1) :: (tryExecuteGo e M cmd (k + 2) (t + 1)).2) := by
  rw [tryExecuteGo, h]
  simp [Nat.not_le_of_lt hT, hs]

/-- The backoff command always starts with the letter `s`. -/
theorem sleepCmd_head (n : Nat) : (sleepCmd n).data.head? = some 's' := by
  show (("sleep " ++ toString (n ^ 2)).data).head? = some 's'
  rw [String.data_append]
  rfl

/-- A string whose first character is not `s` is never a backoff command. -/
theorem sleepCmd_ne (n : Nat) (s : String)
    (hs : s.data.head? ≠ some 's') : sleepCmd n ≠ s := by
  intro h
  exact hs (h ▸ sleepCmd_head n)

/-- `_try_execute` under an oracle that fails the command on every call and
runs sleeps successfully: starting at failure counter `t` with `M - t = d + 1`
budget left, the loop makes `d + 1` further attempts, propagates the error of
the last one, and the trace holds the command exactly `d + 1` times. -/
theorem tryExecuteGo_all_fail (e : Execute) (cmd : String) (m : Nat → String)
    (M : Nat)
    (hc : ∀ k, e k cmd = .processError (m k))
    (hs : ∀ k n, e k (sleepCmd n) = .ok "" "")
    (hne : ∀ n, sleepCmd n ≠ cmd) :
    ∀ d t k, M - t = d + 1 →
      (tryExecuteGo e M cmd k t).1 = .failure (m (k + 2 * d)) ∧
      (tryExecuteGo e M cmd k t).2.count cmd = d + 1 := by
  intro d
  induction d with
  | zero =>
    intro t k hd
    rw [tryExecuteGo_fail_exhausted (hc k) (by omega)]
    simp
  | succ d ih =>
    intro t k hd
    rw [tryExecuteGo_fail_sleep_ok (hc k) (by omega) (hs (k + 1) (t + 1))]
    have h := ih (t + 1) (k + 2) (by omega)
    have harg : k + 2 + 2 * d = k + 2 * (d + 1) := by ring
    have hnc : (cmd == sleepCmd (t + 1)) = false :=
      beq_eq_false_iff_ne.mpr (Ne.symm (hne (t + 1)))
    refine ⟨?_, ?_⟩
    · rw [h.1, harg]
    · simp [List.count_cons, h.2, hnc, hne (t + 1)]

/-- Every entry of a `_try_execute` trace is either the command itself or a
backoff sleep command: both go through the same execute capability. -/
theorem tryExecuteGo_trace_mem (e : Execute) (M : Nat) (cmd : String) :
    ∀ d t k, M - t ≤ d → ∀ x, x ∈ (tryExecuteGo e M cmd k t).2 →
      x = cmd ∨ ∃ n, x = sleepCmd n := by
  intro d
  induction d with
  | zero =>
    intro t k hd x hx
    cases he : e k cmd with
    | ok o1 o2 =>
      rw [tryExecuteGo_ok he] at hx
      simp at hx
      exact Or.inl hx
    | processError msg =>
      rw [tryExecuteGo_fail_exhausted he (by omega)] at hx
      simp at hx
      exact Or.inl hx
  | succ d ih =>
    intro t k hd x hx
    cases he : e k cmd with
    | ok o1 o2 =>
      rw [tryExecuteGo_ok he] at hx
      simp at hx
      exact Or.inl hx
    | processError msg =>
      by_cases hT : t + 1 ≥ M
      · rw [tryExecuteGo_fail_exhausted he hT] at hx
        simp at hx
        exact Or.inl hx
      · cases hsl : e (k + 1) (sleepCmd (t + 1)) with
        | processError s =>
          rw [tryExecuteGo_fail_sleep_fail he (by omega) hsl] at hx
          simp at hx
          rcases hx with h | h
          · exact Or.inl h
          · exact Or.inr ⟨t + 1, h⟩
        | ok a b =>
          rw [tryExecuteGo_fail_sleep_ok he (by omega) hsl] at hx
          simp at hx
          rcases hx with h | h | h
          · exact Or.inl h
          · exact Or.inr ⟨t + 1, h⟩
          · exact ih (t + 1) (k + 2) (by omega) x h

/-- Membership after folding create-if-absent inserts over a candidate
list. -/
theorem mem_foldl_poolInsert {α : Type} [DecidableEq α] (L : List α) :
    ∀ (ks : List α) (x : α),
      x ∈ L.foldl poolInsert ks ↔ x ∈ ks ∨ x ∈ L := by
  induction L with
  | nil => simp
  | cons a L ih =>
    intro ks x
    rw [List.foldl_cons, ih]
    by_cases h : a ∈ ks
    · simp only [poolInsert, if_pos h, List.mem_cons]
      constructor
      · rintro (hk | hL)
        · exact Or.inl hk
        · exact Or.inr (Or.inr hL)
      · rintro (hk | rfl | hL)
        · exact Or.inl hk
        · exact Or.inl h
        · exact Or.inr hL
    · simp only [poolInsert, if_neg h, List.mem_append, List.mem_singleton,
        List.mem_cons]
      tauto

/-- Folding create-if-absent inserts preserves freedom from duplicates. -/
theorem nodup_foldl_poolInsert {α : Type} [DecidableEq α] (L : List α) :
    ∀ ks : List α, ks.Nodup → (L.foldl poolInsert ks).Nodup := by
  induction L with
  | nil => intro ks h; simpa using h
  | cons a L ih =>
    intro ks h
    rw [List.foldl_cons]
    apply ih
    by_cases ha : a ∈ ks
    · simpa [poolInsert, ha] using h
    · rw [poolInsert, if_neg ha, List.nodup_append]
      refine ⟨h, List.nodup_singleton a, ?_⟩
      rw [List.disjoint_left]
      intro x hx hxa
      rw [List.mem_singleton] at hxa
      exact ha (hxa ▸ hx)

/-- When the initial rows are duplicate-free and lie inside the candidate
space, folding create-if-absent inserts over the whole (duplicate-free)
space yields exactly one row per candidate. -/
theorem length_foldl_poolInsert {α : Type} [DecidableEq α] (L ks : List α)
    (hknd : ks.Nodup) (hLnd : L.Nodup) (hsub : ∀ x ∈ ks, x ∈ L) :
    (L.foldl poolInsert ks).length = L.length := by
  have hnd := nodup_foldl_poolInsert L ks hknd
  have hts : (L.foldl poolInsert ks).toFinset = L.toFinset := by
    ext x
    simp only [List.mem_toFinset, mem_foldl_poolInsert]
    constructor
    · rintro (h | h)
      · exact hsub x h
      · exact h
    · exact Or.inr
  calc (L.foldl poolInsert ks).length
      = (L.foldl poolInsert ks).toFinset.card :=
        (List.toFinset_card_of_nodup hnd).symm
    _ = L.toFinset.card := by rw [hts]
    _ = L.length := List.toFinset_card_of_nodup hLnd

/-- A duplicate-free list contained in a duplicate-free list is no longer
than it. -/
theorem length_le_of_nodup_subset {α : Type} [DecidableEq α]
    {ks L : List α} (hknd : ks.Nodup) (hLnd : L.Nodup)
    (hsub : ∀ x ∈ ks, x ∈ L) : ks.length ≤ L.length := by
  calc ks.length = ks.toFinset.card := (List.toFinset_card_of_nodup hknd).symm
    _ ≤ L.toFinset.card := by
        apply Finset.card_le_card
        intro x hx
        simp only [List.mem_toFinset] at hx ⊢
        exact hsub x hx
    _ = L.length := List.toFinset_card_of_nodup hLnd

/-- Grid membership is exactly the pair of range bounds. -/
theorem mem_bladeGrid (ns bps : Nat) (d : ExportDevice) :
    d ∈ bladeGrid ns bps ↔ d.shelf_id < ns ∧ d.blade_id < bps := by
  cases d with
  | mk s b =>
    simp only [bladeGrid, List.mem_flatMap, List.mem_map, List.mem_range]
    constructor
    · rintro ⟨s', hs', b', hb', heq⟩
      cases heq
      exact ⟨hs', hb'⟩
    · rintro ⟨hs, hb⟩
      exact ⟨s, hs, b, hb, rfl⟩

/-- The grid enumerates each shelf/blade pair exactly once. -/
theorem nodup_bladeGrid (ns bps : Nat) : (bladeGrid ns bps).Nodup := by
  rw [bladeGrid, List.nodup_flatMap]
  constructor
  · intro s _
    apply List.Nodup.map _ (List.nodup_range bps)
    intro b1 b2 h
    simpa using congrArg ExportDevice.blade_id h
  · apply List.Pairwise.imp_of_mem _ (List.pairwise_lt_range ns)
    intro s1 s2 _ _ hlt
    simp only [Function.onFun, List.Disjoint]
    intro d hd1 hd2
    simp only [List.mem_map, List.mem_range] at hd1 hd2
    obtain ⟨b1, _, rfl⟩ := hd1
    obtain ⟨b2, _, heq⟩ := hd2
    have := congrArg ExportDevice.shelf_id heq
    simp at this
    omega

/-- Peeling the last shelf off the grid. -/
theorem bladeGrid_succ (n bps : Nat) :
    bladeGrid (n + 1) bps =
      bladeGrid n bps ++
        (List.range bps).map (fun b => (⟨n, b⟩ : ExportDevice)) := by
  rw [bladeGrid, bladeGrid, List.range_succ, List.flatMap_append]
  simp

/-- The grid has one entry per pair. -/
theorem length_bladeGrid (ns bps : Nat) :
    (bladeGrid ns bps).length = ns * bps := by
  induction ns with
  | zero => simp [bladeGrid]
  | succ n ih =>
    rw [bladeGrid_succ, List.length_append, ih, List.length_map,
      List.length_range]
    ring

/-- The population loop of `_ensure_blades` is the fold of create-if-absent
inserts over the grid. -/
theorem ensureBlades_eq_foldl (ns bps : Nat) (ds : List ExportDevice)
    (h : ¬ ds.length ≥ ns * bps) :
    ensureBlades ns bps ds = (bladeGrid ns bps).foldl poolInsert ds := by
  rw [ensureBlades, if_neg h]
  clear h
  induction ns generalizing ds with
  | zero => rfl
  | succ n ih =>
    rw [List.range_succ, List.foldl_append, ih, bladeGrid_succ,
      List.foldl_append, List.foldl_cons, List.foldl_nil, List.foldl_map]
    rfl

/-- The scoped-to-`host` target ids after one create-if-absent insert for
`host`. -/
theorem hostTids_createSafe (host : String) (tid : Nat)
    (ts : List TargetRow) :
    hostTids host (targetIdCreateSafe host tid ts) =
      poolInsert (hostTids host ts) tid := by
  have hcond : (ts.any fun r => r.host = host ∧ r.target_id = tid) = true ↔
      tid ∈ hostTids host ts := by
    simp only [List.any_eq_true, hostTids, List.mem_map, List.mem_filter,
      decide_eq_true_eq]
    constructor
    · rintro ⟨r, hr, h1, h2⟩
      exact ⟨r, ⟨hr, by simp [h1]⟩, h2⟩
    · rintro ⟨r, ⟨hr, h1⟩, h2⟩
      exact ⟨r, hr, by simpa using h1, h2⟩
  by_cases h : tid ∈ hostTids host ts
  · rw [targetIdCreateSafe, if_pos (hcond.mpr h), poolInsert, if_pos h]
  · rw [targetIdCreateSafe,
      if_neg (fun hc => h (hcond.mp hc)), poolInsert, if_neg h]
    simp [hostTids, List.filter_append]

/-- The population loop of `_ensure_target_ids`, seen through the
scoped-to-`host` id list, is the fold of create-if-absent inserts over the
candidate ids. -/
theorem hostTids_foldl (host : String) (L : List Nat) :
    ∀ ts : List TargetRow,
      hostTids host
          (L.foldl (fun acc i => targetIdCreateSafe host (i + 1) acc) ts) =
        (L.map (· + 1)).foldl poolInsert (hostTids host ts) := by
  induction L with
  | nil => intro ts; rfl
  | cons a L ih =>
    intro ts
    rw [List.map_cons, List.foldl_cons, List.foldl_cons, ih,
      hostTids_createSafe]

/-- The per-host row count is the length of the scoped id list. -/
theorem targetIdCountByHost_eq (host : String) (ts : List TargetRow) :
    targetIdCountByHost host ts = (hostTids host ts).length := by
  simp [targetIdCountByHost, hostTids]

/-- The candidate id list `1 .. N` of `_ensure_target_ids`. -/
theorem mem_targetIdList (N tid : Nat) :
    tid ∈ (List.range N).map (· + 1) ↔ 1 ≤ tid ∧ tid ≤ N := by
  simp only [List.mem_map, List.mem_range]
  constructor
  · rintro ⟨b, hb, rfl⟩
    constructor <;> omega
  · rintro ⟨h1, h2⟩
    exact ⟨tid - 1, by omega, by omega⟩

/-- The candidate id list is duplicate-free. -/
theorem nodup_targetIdList (N : Nat) :
    ((List.range N).map (· + 1)).Nodup := by
  apply List.Nodup.map _ (List.nodup_range N)
  intro a b h
  simpa using h

/-! ## Claim theorems -/

/-- C4: a command whose first two executions fail and whose third succeeds,
run through `_try_execute` with `num_shell_tries = 3`, returns success, and
exactly two backoff sleeps are executed between the attempts, of 1 second
after failed attempt 1 and 4 seconds after failed attempt 2 (the sleep after
failed attempt n lasts n² seconds). -/
theorem try_execute_retries_then_succeeds (e : Execute)
    (cmd m1 m2 s1 t1 s2 t2 o1 o2 : String)
    (h0 : e 0 cmd = .processError m1)
    (h1 : e 1 "sleep 1" = .ok s1 t1)
    (h2 : e 2 cmd = .processError m2)
    (h3 : e 3 "sleep 4" = .ok s2 t2)
    (h4 : e 4 cmd = .ok o1 o2) :
    tryExecute e 3 cmd = (.success, [cmd, "sleep 1", cmd, "sleep 4", cmd]) := by
  have h1' : e (0 + 1) (sleepCmd (0 + 1)) = .ok s1 t1 := h1
  have h3' : e (0 + 2 + 1) (sleepCmd (1 + 1)) = .ok s2 t2 := h3
  have h2' : e (0 + 2) cmd = .processError m2 := h2
  have h4' : e (0 + 2 + 2) cmd = .ok o1 o2 := h4
  rw [tryExecute,
    tryExecuteGo_fail_sleep_ok h0 (by omega) h1',
    tryExecuteGo_fail_sleep_ok h2' (by omega) h3',
    tryExecuteGo_ok h4']
  rfl

/-- C4 witness: the theorem applied to a concrete oracle failing on calls 0
and 2 and succeeding elsewhere. -/
theorem try_execute_retries_then_succeeds_witness :
    tryExecute
        (fun k _ => if k = 0 ∨ k = 2 then .processError "boom" else .ok "" "")
        3 "true" =
      (.success, ["true", "sleep 1", "true", "sleep 4", "true"]) :=
  try_execute_retries_then_succeeds _ "true" "boom" "boom" "" "" "" "" "" ""
    rfl rfl rfl rfl rfl

/-- C3: on a discovery output in which no line contains both the configured
IP filter ("127.0") and the volume name ("vol-7"),
`_get_name_and_portal` — and hence `discover_volume` — does not produce an
explicit "target not found" failure: the Python local `location` is never
assigned and the code faults with an undefined-value (UnboundLocalError)
crash, refuting the claimed NotFoundError. -/
theorem discovery_no_match_is_unbound_local_fault :
    getNameAndPortal "127.0" "vol-7"
        "192.168.0.2:3260,1 iqn.2010-10.org.openstack:vol-9" =
      .unboundLocalError ∧
    iscsiDiscoverVolume "127.0"
        "192.168.0.2:3260,1 iqn.2010-10.org.openstack:vol-9" "vol-7" "h2" =
      none := by
  constructor <;> rfl

/-- C7: `VolumeDriver.create_volume` sizes the backing logical volume at
100 megabytes when the volume size is 0, and at the size in gigabytes
otherwise: the `lvcreate` command carries "100M" for size 0 and "{size}G"
for any other size. -/
theorem lvcreate_sizes_from_volume_size (volume_group name : String)
    (size : Nat) :
    (size = 0 → lvcreateCmd volume_group name size =
      "sudo lvcreate -L 100M -n " ++ name ++ " " ++ volume_group) ∧
    (size ≠ 0 → lvcreateCmd volume_group name size =
      "sudo lvcreate -L " ++ toString size ++ "G -n " ++ name ++ " " ++
        volume_group) := by
  constructor
  · intro h
    subst h
    rfl
  · intro h
    simp [lvcreateCmd, lvSizeStr, h, String.append_assoc]

/-- C7 witness: the theorem applied at sizes 0 and 5 with the default volume
group. -/
theorem lvcreate_sizes_from_volume_size_witness :
    lvcreateCmd "nova-volumes" "vol-7" 0 =
      "sudo lvcreate -L 100M -n " ++ "vol-7" ++ " " ++ "nova-volumes" ∧
    lvcreateCmd "nova-volumes" "vol-7" 5 =
      "sudo lvcreate -L " ++ toString 5 ++ "G -n " ++ "vol-7" ++ " " ++
        "nova-volumes" :=
  ⟨(lvcreate_sizes_from_volume_size "nova-volumes" "vol-7" 0).1 rfl,
   (lvcreate_sizes_from_volume_size "nova-volumes" "vol-7" 5).2 (by decide)⟩

/-- C9: `setup_compute_volume` on a volume whose host equals the requesting
host, with `use_local_volumes` enabled, returns the direct local device path
`/dev/{volume_group}/{name}` and issues zero external commands. -/
theorem setup_compute_volume_local_shortcut (f : Flags) (self_host : String)
    (discoveryOut : String) (db : Db) (volume_id : Nat) (v : Volume)
    (hget : volumeGet db volume_id = some v)
    (hhost : v.host = self_host)
    (hflag : f.use_local_volumes = true) :
    setupComputeVolume f self_host discoveryOut db volume_id =
      some ("/dev/" ++ f.volume_group ++ "/" ++ v.name, []) := by
  simp [setupComputeVolume, hget, hhost, hflag, local_path]

/-- C9 witness: the theorem applied to a concrete store holding volume 7 on
host "h1", queried from "h1" with the default flags. -/
theorem setup_compute_volume_local_shortcut_witness :
    setupComputeVolume defaultFlags "h1" ""
        { volumes := [⟨7, "vol-7", 2, "h1", "available", "detached", none⟩],
          targets := [] } 7 =
      some ("/dev/" ++ defaultFlags.volume_group ++ "/" ++ "vol-7", []) :=
  setup_compute_volume_local_shortcut defaultFlags "h1" ""
    { volumes := [⟨7, "vol-7", 2, "h1", "available", "detached", none⟩],
      targets := [] } 7
    ⟨7, "vol-7", 2, "h1", "available", "detached", none⟩ rfl rfl rfl

/-- C2: `delete_volume` on a volume whose `attach_status` is "attached", or
whose host differs from the current host, fails with the validation error
(`exception.Error`) before any side effect: the store is unchanged and no
driver step (export removal, backing-volume deletion) runs. -/
theorem delete_volume_rejects_before_side_effects (self_host : String)
    (removeExportRes deleteVolRes : Except String Unit)
    (db : Db) (volume_id : Nat) (v : Volume)
    (hget : volumeGet db volume_id = some v)
    (hbad : v.attach_status = "attached" ∨ v.host ≠ self_host) :
    ∃ msg, deleteVolume self_host removeExportRes deleteVolRes db volume_id =
      (.validationError msg, db, []) := by
  by_cases ha : v.attach_status = "attached"
  · exact ⟨"Volume is still attached", by simp [deleteVolume, hget, ha]⟩
  · rcases hbad with h | h
    · exact absurd h ha
    · exact ⟨"Volume is not local to this node",
        by simp [deleteVolume, hget, ha, h]⟩

/-- C2 witness: the theorem applied to an attached volume on host "h1",
with driver steps that would succeed if they were (wrongly) reached. -/
theorem delete_volume_rejects_before_side_effects_witness :
    ∃ msg, deleteVolume "h1" (.ok ()) (.ok ())
        { volumes := [⟨7, "vol-7", 2, "h1", "in-use", "attached", none⟩],
          targets := [] } 7 =
      (.validationError msg,
       ({ volumes := [⟨7, "vol-7", 2, "h1", "in-use", "attached", none⟩],
          targets := [] } : Db), []) :=
  delete_volume_rejects_before_side_effects "h1" (.ok ()) (.ok ())
    { volumes := [⟨7, "vol-7", 2, "h1", "in-use", "attached", none⟩],
      targets := [] } 7
    ⟨7, "vol-7", 2, "h1", "in-use", "attached", none⟩ rfl (Or.inl rfl)

/-- C8: in `delete_volume`, the record is destroyed only after both
`driver.remove_export` and `driver.delete_volume` succeed: if the export
removal fails, only that step ran and the store is unchanged; if the
backing-volume deletion fails, both steps ran and the store is still
unchanged (no compensation, the record is preserved); when both succeed the
record is destroyed and is gone from the store. -/
theorem delete_volume_destroys_record_last (self_host : String)
    (removeExportRes deleteVolRes : Except String Unit)
    (db : Db) (volume_id : Nat) (v : Volume)
    (hget : volumeGet db volume_id = some v)
    (hdet : v.attach_status ≠ "attached")
    (hhost : v.host = self_host) :
    (∀ e, removeExportRes = .error e →
      deleteVolume self_host removeExportRes deleteVolRes db volume_id =
        (.execError e, db, ["remove_export"])) ∧
    (∀ e, removeExportRes = .ok () → deleteVolRes = .error e →
      deleteVolume self_host removeExportRes deleteVolRes db volume_id =
        (.execError e, db, ["remove_export", "delete_volume"])) ∧
    (removeExportRes = .ok () → deleteVolRes = .ok () →
      deleteVolume self_host removeExportRes deleteVolRes db volume_id =
        (.deleted, volumeDestroy db volume_id,
         ["remove_export", "delete_volume"]) ∧
      volumeGet (volumeDestroy db volume_id) volume_id = none) := by
  refine ⟨?_, ?_, ?_⟩
  · intro e h1
    simp [deleteVolume, hget, hdet, hhost, h1]
  · intro e h1 h2
    simp [deleteVolume, hget, hdet, hhost, h1, h2]
  · intro h1 h2
    refine ⟨by simp [deleteVolume, hget, hdet, hhost, h1, h2], ?_⟩
    simp [volumeGet, volumeDestroy, List.find?_eq_none, List.mem_filter]

/-- C8 witness: the theorem applied to a detached local volume, in the case
where both driver steps succeed. -/
theorem delete_volume_destroys_record_last_witness :
    deleteVolume "h1" (.ok ()) (.ok ())
        { volumes := [⟨7, "vol-7", 2, "h1", "available", "detached", none⟩],
          targets := [] } 7 =
      (.deleted,
       volumeDestroy
         { volumes := [⟨7, "vol-7", 2, "h1", "available", "detached", none⟩],
           targets := [] } 7,
       ["remove_export", "delete_volume"]) ∧
    volumeGet
        (volumeDestroy
          { volumes := [⟨7, "vol-7", 2, "h1", "available", "detached", none⟩],
            targets := [] } 7) 7 = none :=
  (delete_volume_destroys_record_last "h1" (.ok ()) (.ok ())
    { volumes := [⟨7, "vol-7", 2, "h1", "available", "detached", none⟩],
      targets := [] } 7
    ⟨7, "vol-7", 2, "h1", "available", "detached", none⟩ rfl
    (by decide) rfl).2.2 rfl rfl

/-- C5: a command that fails on every attempt is executed exactly the
configured maximum number of attempts (any `num_shell_tries ≥ 1`, default 3),
after which the failure of the final attempt — the last underlying
`ProcessExecutionError` — is raised to the caller. -/
theorem try_execute_exhausts_and_raises_final (e : Execute) (cmd : String)
    (m : Nat → String) (M : Nat) (hM : 1 ≤ M)
    (hc : ∀ k, e k cmd = .processError (m k))
    (hs : ∀ k n, e k (sleepCmd n) = .ok "" "")
    (hne : ∀ n, sleepCmd n ≠ cmd) :
    (tryExecute e M cmd).1 = .failure (m (2 * (M - 1))) ∧
    (tryExecute e M cmd).2.count cmd = M := by
  have h := tryExecuteGo_all_fail e cmd m M hc hs hne (M - 1) 0 0 (by omega)
  have hM1 : M - 1 + 1 = M := by omega
  rw [tryExecute]
  constructor
  · rw [h.1]
    simp
  · rw [h.2, hM1]

/-- An execute oracle that fails the command "false" on every call and
succeeds on everything else. -/
def alwaysFailFalseOracle : Execute := fun _ c =>
  if c = "false" then .processError "boom" else .ok "" ""

/-- C5 witness: the theorem applied to the oracle that always fails the
command "false", with the default 3 attempts. -/
theorem try_execute_exhausts_and_raises_final_witness :
    (tryExecute alwaysFailFalseOracle 3 "false").1 = .failure "boom" ∧
    (tryExecute alwaysFailFalseOracle 3 "false").2.count "false" = 3 :=
  try_execute_exhausts_and_raises_final alwaysFailFalseOracle "false"
    (fun _ => "boom") 3 (by omega)
    (fun _ => by simp [alwaysFailFalseOracle])
    (fun k n => by
      simp [alwaysFailFalseOracle, sleepCmd_ne n "false" (by decide)])
    (fun n => sleepCmd_ne n "false" (by decide))

/-- C10: the backoff delay of `_try_execute` is realized by executing the
shell command "sleep {n}" through the same injectable execute capability as
the main command: every entry of the executed-command trace is either the
command or a sleep command (so a stubbed execute also receives — and can
no-op — the sleeps), and a failure raised while executing the sleep command
propagates out of the wrapper unretried, with the trace ending at that
sleep. -/
theorem backoff_sleep_is_an_executed_command :
    (∀ (e : Execute) (M : Nat) (cmd m s : String), 2 ≤ M →
      e 0 cmd = .processError m →
      e 1 "sleep 1" = .processError s →
      tryExecute e M cmd = (.failure s, [cmd, "sleep 1"])) ∧
    (∀ (e : Execute) (M : Nat) (cmd x : String),
      x ∈ (tryExecute e M cmd).2 → x = cmd ∨ ∃ n, x = sleepCmd n) := by
  constructor
  · intro e M cmd m s hM h0 h1
    have h1' : e (0 + 1) (sleepCmd (0 + 1)) = .processError s := h1
    rw [tryExecute, tryExecuteGo_fail_sleep_fail h0 (by omega) h1']
    rfl
  · intro e M cmd x hx
    exact tryExecuteGo_trace_mem e M cmd M 0 0 (by omega) x hx

/-- C10 witness: the theorem's sleep-failure half applied to an oracle whose
first call (the command) and second call (the sleep) both fail. -/
theorem backoff_sleep_is_an_executed_command_witness :
    tryExecute
        (fun k _ => if k = 0 then .processError "boom"
          else .processError "sleepfail") 3 "true" =
      (.failure "sleepfail", ["true", "sleep 1"]) :=
  backoff_sleep_is_an_executed_command.1 _ 3 "true" "boom" "sleepfail"
    (by omega) rfl rfl

/-- C6: for both resource pools — the shelf/blade grid of size
`num_shelves * blades_per_shelf` and the per-host target-id range
`1 .. iscsi_target_ids` — running the population operation twice in
sequence leaves exactly N allocatable rows for the scope, never more, and
the second run is the identity (no error, no duplicate rows), provided the
pre-existing rows are duplicate-free and lie inside the identifier space. -/
theorem ensure_capacity_idempotent (ns bps N : Nat) (host : String)
    (ds : List ExportDevice) (ts : List TargetRow)
    (hnd : ds.Nodup)
    (hin : ∀ d ∈ ds, d.shelf_id < ns ∧ d.blade_id < bps)
    (htnd : (hostTids host ts).Nodup)
    (htin : ∀ r ∈ ts, r.host = host → 1 ≤ r.target_id ∧ r.target_id ≤ N) :
    (ensureBlades ns bps ds).length = ns * bps ∧
    ensureBlades ns bps (ensureBlades ns bps ds) = ensureBlades ns bps ds ∧
    targetIdCountByHost host (ensureTargetIds N host ts) = N ∧
    ensureTargetIds N host (ensureTargetIds N host ts) =
      ensureTargetIds N host ts := by
  have hsub : ∀ d ∈ ds, d ∈ bladeGrid ns bps := fun d hd =>
    (mem_bladeGrid ns bps d).mpr (hin d hd)
  have hlen : (ensureBlades ns bps ds).length = ns * bps := by
    by_cases hg : ds.length ≥ ns * bps
    · rw [ensureBlades, if_pos hg]
      have hle := length_le_of_nodup_subset hnd (nodup_bladeGrid ns bps) hsub
      rw [length_bladeGrid] at hle
      omega
    · rw [ensureBlades_eq_foldl ns bps ds hg,
        length_foldl_poolInsert _ _ hnd (nodup_bladeGrid ns bps) hsub,
        length_bladeGrid]
  have hidem : ensureBlades ns bps (ensureBlades ns bps ds) =
      ensureBlades ns bps ds := by
    rw [ensureBlades, if_pos (ge_of_eq hlen)]
  have htsub : ∀ x ∈ hostTids host ts, x ∈ (List.range N).map (· + 1) := by
    intro x hx
    rw [mem_targetIdList]
    simp only [hostTids, List.mem_map, List.mem_filter,
      decide_eq_true_eq] at hx
    obtain ⟨r, ⟨hr, hh⟩, rfl⟩ := hx
    exact htin r hr hh
  have htlen : targetIdCountByHost host (ensureTargetIds N host ts) = N := by
    by_cases hg : targetIdCountByHost host ts ≥ N
    · rw [ensureTargetIds, if_pos hg]
      have hle := length_le_of_nodup_subset htnd (nodup_targetIdList N) htsub
      rw [List.length_map, List.length_range] at hle
      rw [targetIdCountByHost_eq] at hg ⊢
      omega
    · rw [ensureTargetIds, if_neg hg, targetIdCountByHost_eq, hostTids_foldl,
        length_foldl_poolInsert _ _ htnd (nodup_targetIdList N) htsub,
        List.length_map, List.length_range]
  have htidem : ensureTargetIds N host (ensureTargetIds N host ts) =
      ensureTargetIds N host ts := by
    rw [ensureTargetIds, if_pos (ge_of_eq htlen)]
  exact ⟨hlen, hidem, htlen, htidem⟩

/-- C6 witness: the theorem applied to a 2-shelf × 3-blade grid with one
pre-existing row and a size-2 per-host target pool with one pre-existing
allocated row for "h1" and one row for another host. -/
theorem ensure_capacity_idempotent_witness :
    (ensureBlades 2 3 [⟨1, 2⟩]).length = 2 * 3 ∧
    ensureBlades 2 3 (ensureBlades 2 3 [⟨1, 2⟩]) =
      ensureBlades 2 3 [⟨1, 2⟩] ∧
    targetIdCountByHost "h1"
        (ensureTargetIds 2 "h1"
          [⟨"h1", 2, some 9⟩, ⟨"h2", 7, none⟩]) = 2 ∧
    ensureTargetIds 2 "h1"
        (ensureTargetIds 2 "h1" [⟨"h1", 2, some 9⟩, ⟨"h2", 7, none⟩]) =
      ensureTargetIds 2 "h1" [⟨"h1", 2, some 9⟩, ⟨"h2", 7, none⟩] :=
  ensure_capacity_idempotent 2 3 2 "h1" [⟨1, 2⟩]
    [⟨"h1", 2, some 9⟩, ⟨"h2", 7, none⟩]
    (by decide) (by decide) (by decide) (by decide)

set_option maxRecDepth 40000

/-- C1: `create_volume` performs its steps in order — load the record,
persist the current host onto it *before* any backing-volume creation, then
create the backing logical volume, then create the export (allocating a
target id from the pool and issuing the two `ietadm` commands), and only
then update the record to status "available" with a launch timestamp; and
concretely, for volume id 7, name "vol-7", size 2 on host "h1" with the
iSCSI driver and default flags, the backing store is created at 2G, target
id 1 is allocated from the fresh pool, and the target and LUN are created
via the two `ietadm` commands. -/
theorem create_volume_sequence :
    (∀ (f : Flags) (self_host : String) (now : Nat) (db : Db)
        (vid tid : Nat) (v : Volume) (ts2 : List TargetRow),
      volumeGet db vid = some v →
      volumeAllocateTargetId self_host vid
          (ensureTargetIds f.iscsi_target_ids self_host db.targets) =
        some (tid, ts2) →
      createVolume f self_host now db vid =
        some ([Event.getVolume vid,
               Event.updateHost vid self_host,
               Event.exec (lvcreateCmd f.volume_group v.name v.size),
               Event.allocTarget vid self_host tid,
               Event.exec (ietadmNewTargetCmd tid (iscsiName f.iqnBase v.name)),
               Event.exec (ietadmNewLunCmd tid
                 (local_path f.volume_group v.name)),
               Event.updateAvailable vid],
              volumeUpdateAvailable
                { volumeUpdateHost db vid self_host with targets := ts2 }
                vid now)) ∧
    ((createVolume defaultFlags "h1" 0
        { volumes := [⟨7, "vol-7", 2, "", "creating", "detached", none⟩],
          targets := [] } 7).map Prod.fst =
      some [Event.getVolume 7,
            Event.updateHost 7 "h1",
            Event.exec "sudo lvcreate -L 2G -n vol-7 nova-volumes",
            Event.allocTarget 7 "h1" 1,
            Event.exec
              "sudo ietadm --op new --tid=1 --params Name=iqn.2010-10.org.openstack:vol-7",
            Event.exec
              "sudo ietadm --op new --tid=1 --lun=0 --params Path=/dev/nova-volumes/vol-7,Type=fileio",
            Event.updateAvailable 7]) := by
  constructor
  · intro f self_host now db vid tid v ts2 hget halloc
    have hv : v.id = vid := by
      have h := List.find?_some hget
      simpa using h
    simp only [createVolume, hget, iscsiCreateExport]
    rw [show ({ v with host := self_host } : Volume).id = vid from hv]
    rw [show (volumeUpdateHost db vid self_host).targets = db.targets from rfl]
    rw [halloc]
    rfl
  · rfl

/-- C1 witness: the general half of the theorem applied to the concrete
end-to-end scenario (volume 7, "vol-7", size 2, host "h1", fresh store,
default flags). -/
theorem create_volume_sequence_witness :
    createVolume defaultFlags "h1" 0
        { volumes := [⟨7, "vol-7", 2, "", "creating", "detached", none⟩],
          targets := [] } 7 =
      some ([Event.getVolume 7,
             Event.updateHost 7 "h1",
             Event.exec (lvcreateCmd defaultFlags.volume_group "vol-7" 2),
             Event.allocTarget 7 "h1" 1,
             Event.exec (ietadmNewTargetCmd 1
               (iscsiName defaultFlags.iqnBase "vol-7")),
             Event.exec (ietadmNewLunCmd 1
               (local_path defaultFlags.volume_group "vol-7")),
             Event.updateAvailable 7],
            volumeUpdateAvailable
              { volumeUpdateHost
                  { volumes :=
                      [⟨7, "vol-7", 2, "", "creating", "detached", none⟩],
                    targets := [] } 7 "h1" with
                targets :=
                  (volumeAllocateTargetId "h1" 7
                    (ensureTargetIds 100 "h1" [])).getD (0, []) |>.2 }
              7 0) :=
  create_volume_sequence.1 defaultFlags "h1" 0
    { volumes := [⟨7, "vol-7", 2, "", "creating", "detached", none⟩],
      targets := [] } 7 1
    ⟨7, "vol-7", 2, "", "creating", "detached", none⟩
    ((volumeAllocateTargetId "h1" 7 (ensureTargetIds 100 "h1" [])).getD
      (0, []) |>.2)
    rfl (by rfl)

end Nova
